import Mathlib

/-!
Verification of the editor-shell runtime of pIDEstyx.

The shallow embedding below is translated from the React component in
src/ide-core/ui/src/App.tsx (the richer variant) and, where noted, from the
simpler variant in src/unnamed/part_000.  Host-side behaviour (the Tauri
backend answering load_buffer, save_buffer and list_files) is not part of
src/ and is modelled from the spec where a claim needs it.

Strings of the UI (buffer text, roots, paths, log lines) are Lean String;
the JavaScript split("/") used for leaf-name display is modelled on the
underlying character list.  Asynchrony is modelled by an explicit event
machine: issuing a host call records an outstanding request in the state,
and the arrival of its response is a separate event, so interleavings of
root changes and late responses can be expressed.
-/

/-- Error taxonomy of the host boundary (spec section 7): HostUnavailable,
NotFound, Invalid.  The UI code never inspects the error value, only
whether the call rejected. -/
inductive HostError where
  | notFound
  | unavailable
  | invalid
deriving DecidableEq

/-- The state owned by the App component in src/ide-core/ui/src/App.tsx:
code (line 7, initialised to the welcome placeholder), projectRoot
(line 8), fileList (line 9), plus bookkeeping that makes the asynchronous
host calls explicit: pendingList holds the root argument of every
outstanding list_files request (the root captured by refreshFileList at
issue time, line 64), pendingLoad counts outstanding load_buffer requests
from the effect at lines 17-22, and log collects console output. -/
structure AppState where
  code : String
  projectRoot : String
  fileList : List String
  pendingList : List String
  pendingLoad : Nat
  log : List String
deriving DecidableEq

/-- The effect of lines 17-22: it runs on mount and on every change of
projectRoot, calls refreshFileList() - which issues list_files with the
projectRoot of the current render (line 64) - and issues load_buffer. -/
def issueRootEffect (s : AppState) : AppState :=
  { s with pendingList := s.pendingList ++ [s.projectRoot],
           pendingLoad := s.pendingLoad + 1 }

/-- State at line 6-10 before any effect has run: code is the welcome
placeholder, projectRoot its initial value, fileList empty. -/
def initialState : AppState :=
  { code := "// Welcome to pIDEstyx IDE!\n"
    projectRoot := "/path/to/project"
    fileList := []
    pendingList := []
    pendingLoad := 0
    log := [] }

/-- State right after mount: the effect at lines 17-22 has issued its two
requests for the initial root. -/
def mountedState : AppState := issueRootEffect initialState

/-- Continuation of refreshFileList (lines 62-69) when the list_files
response arrives.  reqRoot is the root the request was issued with.  On
success the try-body resumes: setFileList(files), replacing the list
wholesale - the code checks nothing against the current root.  On failure
the catch logs and leaves fileList untouched. -/
def applyListResponse (s : AppState) (reqRoot : String)
    (result : Except HostError (List String)) : AppState :=
  let s1 := { s with pendingList := s.pendingList.erase reqRoot }
  match result with
  | Except.ok files => { s1 with fileList := files }
  | Except.error _ => { s1 with log := s1.log ++ ["Failed to list files"] }

/-- Modelled from the spec: the tagging policy of spec section 5 - apply a
list_files result only when its request tag equals the current root, else
discard silently.  Used only to contrast with applyListResponse; the code
in src/ does not implement this check. -/
def applyListResponseSpec (s : AppState) (reqRoot : String)
    (result : Except HostError (List String)) : AppState :=
  let s1 := { s with pendingList := s.pendingList.erase reqRoot }
  if reqRoot = s.projectRoot then
    match result with
    | Except.ok files => { s1 with fileList := files }
    | Except.error _ => { s1 with log := s1.log ++ ["Failed to list files"] }
  else s1

/-- Continuation of the load_buffer call of the effect (lines 19-21):
then(setCode) overwrites the buffer text wholesale on success; the catch
logs "No existing buffer found" and changes nothing else on failure. -/
def applyLoadResponse (s : AppState) (result : Except HostError String) :
    AppState :=
  let s1 := { s with pendingLoad := s.pendingLoad - 1 }
  match result with
  | Except.ok t => { s1 with code := t }
  | Except.error _ => { s1 with log := s1.log ++ ["No existing buffer found"] }

/-- handleEditorChange (lines 71-73): setCode(value || "") - an undefined
or empty value becomes the empty string. -/
def handleEditorChange (s : AppState) (value : Option String) : AppState :=
  { s with code := (value.getD "") }

/-- Events of the shell runtime: a user edit of the project-root input
(which re-runs the effect of lines 17-22 with the new root), the arrival
of a list_files or load_buffer response, and a buffer edit. -/
inductive AppEvent where
  | setRoot (r : String)
  | listResponse (reqRoot : String) (result : Except HostError (List String))
  | loadResponse (result : Except HostError String)
  | edit (value : Option String)

/-- One step of the event machine. -/
def step (s : AppState) : AppEvent → AppState
  | AppEvent.setRoot r => issueRootEffect { s with projectRoot := r }
  | AppEvent.listResponse reqRoot result => applyListResponse s reqRoot result
  | AppEvent.loadResponse result => applyLoadResponse s result
  | AppEvent.edit value => handleEditorChange s value

/-- Run a sequence of events. -/
def run (s : AppState) (events : List AppEvent) : AppState :=
  events.foldl step s

/-- C5: refresh replaces the file list wholesale on success; on failure it
logs and leaves the previous file list untouched. -/
theorem c5_refresh_replaces_or_keeps (s : AppState) (r : String)
    (files : List String) (e : HostError) :
    (applyListResponse s r (Except.ok files)).fileList = files ∧
    (applyListResponse s r (Except.ok files)).log = s.log ∧
    (applyListResponse s r (Except.error e)).fileList = s.fileList ∧
    (applyListResponse s r (Except.error e)).log =
      s.log ++ ["Failed to list files"] := by
  refine ⟨rfl, rfl, rfl, rfl⟩

/-- C4: on initial mount, a rejected load_buffer is swallowed to the
diagnostic log "No existing buffer found" and the displayed buffer text
remains the placeholder unchanged. -/
theorem c4_mount_load_failure_keeps_placeholder (e : HostError) :
    initialState.code = "// Welcome to pIDEstyx IDE!\n" ∧
    (applyLoadResponse mountedState (Except.error e)).code =
      "// Welcome to pIDEstyx IDE!\n" ∧
    (applyLoadResponse mountedState (Except.error e)).log =
      mountedState.log ++ ["No existing buffer found"] := by
  refine ⟨rfl, rfl, rfl⟩

/-- C10: mount issues a list_files request for the initial root and one
load_buffer request; every root change does the same for the new root;
and a successful load_buffer response overwrites the whole buffer text,
whatever unsaved edits it held, with no confirmation step. -/
theorem c10_root_change_requests_and_load_overwrite :
    mountedState.pendingList = ["/path/to/project"] ∧
    mountedState.pendingLoad = 1 ∧
    (∀ s : AppState, ∀ r : String,
      (step s (AppEvent.setRoot r)).projectRoot = r ∧
      (step s (AppEvent.setRoot r)).pendingList = s.pendingList ++ [r] ∧
      (step s (AppEvent.setRoot r)).pendingLoad = s.pendingLoad + 1) ∧
    (∀ s : AppState, ∀ t : String,
      (step s (AppEvent.loadResponse (Except.ok t))).code = t) := by
  refine ⟨rfl, rfl, fun s r => ⟨rfl, rfl, rfl⟩, fun s t => rfl⟩

/-- State after the scenario prefix of C1: the root is set to "A" (issuing
a list_files request tagged "A"), then changed to "B" while that request
is still outstanding. -/
def c1Mid : AppState :=
  run mountedState [AppEvent.setRoot "A", AppEvent.setRoot "B"]

/-- c1Mid after the request for "B" resolves first, with files of B. -/
def c1AfterB : AppState :=
  step c1Mid (AppEvent.listResponse "B" (Except.ok ["/B/b.rs"]))

/-- c1AfterB after the late response for the superseded root "A" arrives. -/
def c1AfterA : AppState :=
  step c1AfterB (AppEvent.listResponse "A" (Except.ok ["/A/a.rs"]))

/-- C1 counterexample: in exactly the scenario of the claim - the request
for root "A" still outstanding when the root changes to "B", and the
request for "B" resolving first - the late "A" response does replace the
B-derived file list, because refreshFileList applies every successful
response unconditionally; there is no tag check in the code.  The final
conjunct shows that the tagging policy of the spec would have kept the
B-derived list on the same arrival order. -/
theorem c1_late_response_replaces_list :
    "A" ∈ c1Mid.pendingList ∧
    c1Mid.projectRoot = "B" ∧
    c1AfterB.fileList = ["/B/b.rs"] ∧
    c1AfterA.fileList = ["/A/a.rs"] ∧
    c1AfterA.fileList ≠ ["/B/b.rs"] ∧
    (applyListResponseSpec c1AfterB "A"
        (Except.ok ["/A/a.rs"])).fileList = ["/B/b.rs"] := by
  refine ⟨by decide, rfl, rfl, rfl, by decide, rfl⟩

/-- C1 amended: outstanding list_files requests are not tagged against the
current root; every successful response overwrites the file list
unconditionally, even when the root it was issued for differs from the
current root, so the last response to arrive wins. -/
theorem c1_amended_response_applied_unconditionally (s : AppState)
    (r : String) (files : List String) (h : r ≠ s.projectRoot) :
    (applyListResponse s r (Except.ok files)).fileList = files := rfl

/-- Witness for c1_amended_response_applied_unconditionally at a concrete
state whose current root differs from the request tag. -/
theorem c1_amended_witness :
    "A" ≠ mountedState.projectRoot ∧
    (applyListResponse mountedState "A"
        (Except.ok ["/A/a.rs"])).fileList = ["/A/a.rs"] :=
  ⟨by decide, c1_amended_response_applied_unconditionally mountedState "A"
      ["/A/a.rs"] (by decide)⟩

/-- State of the panel-layout logic (lines 12-15, 24-48 of App.tsx):
isResizing, whether sidebarRef.current is set, whether editorRef.current
is set (the editor handle, opaque here), the sidebar width in px from
style.width, and a count of editor.layout() invocations. -/
structure LayoutState where
  isResizing : Bool
  sidebarPresent : Bool
  editorHandle : Option Unit
  sidebarWidth : Int
  layoutCalls : Nat
deriving DecidableEq

/-- handleMouseMove (lines 25-34): return early unless isResizing and the
sidebar ref is set; otherwise apply width max(150, e.clientX) to the
sidebar and, if the editor handle is set, call layout(). -/
def handleMouseMove (s : LayoutState) (clientX : Int) : LayoutState :=
  if !s.isResizing || !s.sidebarPresent then s
  else
    { s with sidebarWidth := max 150 clientX,
             layoutCalls :=
               if s.editorHandle.isSome then s.layoutCalls + 1
               else s.layoutCalls }

/-- handleMouseUp (lines 36-39): set isResizing to false and, if the
editor handle is set, perform one final layout() call. -/
def handleMouseUp (s : LayoutState) : LayoutState :=
  { s with isResizing := false,
           layoutCalls :=
             if s.editorHandle.isSome then s.layoutCalls + 1
             else s.layoutCalls }

/-- onMouseDown of the drag handle (line 121): setIsResizing(true). -/
def handleDragMouseDown (s : LayoutState) : LayoutState :=
  { s with isResizing := true }

/-- A sequence of pointer-move events folded through handleMouseMove. -/
def runMoves (s : LayoutState) (xs : List Int) : LayoutState :=
  xs.foldl handleMouseMove s

/-- The effect at lines 50-60: it returns early (creating no observer)
unless both the container ref and the editor ref are set; otherwise it
creates a ResizeObserver whose callback calls layout() on the editor. -/
def setupResizeObserver (container : Option Unit) (editor : Option Unit) :
    Option Unit :=
  match container, editor with
  | some _, some _ => some ()
  | _, _ => none

/-- The ResizeObserver callback (line 54) dereferences editorRef.current
with a non-null assertion: it succeeds exactly when the handle is set and
is a null dereference otherwise. -/
def observerCallback (editor : Option Unit) : Except String Unit :=
  match editor with
  | some _ => Except.ok ()
  | none => Except.error "null dereference"

/-- C2: for every pointer-move delivered while isResizing is true (and the
sidebar ref set, as it is in the rendered app), the width applied to the
sidebar is max(150, clientX). -/
theorem c2_width_clamped (s : LayoutState) (x : Int)
    (hr : s.isResizing = true) (hp : s.sidebarPresent = true) :
    (handleMouseMove s x).sidebarWidth = max 150 x := by
  simp [handleMouseMove, hr, hp]

/-- A concrete layout state in the middle of a drag. -/
def resizingState : LayoutState :=
  { isResizing := true
    sidebarPresent := true
    editorHandle := some ()
    sidebarWidth := 250
    layoutCalls := 0 }

/-- Witness for c2_width_clamped: a move to x = 80 while resizing yields
an applied width of 150, not 80. -/
theorem c2_width_clamped_witness :
    resizingState.isResizing = true ∧
    resizingState.sidebarPresent = true ∧
    (handleMouseMove resizingState 80).sidebarWidth = 150 := by
  refine ⟨rfl, rfl, ?_⟩
  rw [c2_width_clamped resizingState 80 rfl rfl]
  decide

/-- Pointer moves while not resizing are a no-op: the early return at
line 26 fires. -/
theorem mouseMove_of_not_resizing (s : LayoutState)
    (h : s.isResizing = false) (x : Int) : handleMouseMove s x = s := by
  simp [handleMouseMove, h]

/-- Any sequence of pointer moves starting from a non-resizing state
leaves the state unchanged. -/
theorem runMoves_of_not_resizing (s : LayoutState)
    (h : s.isResizing = false) (xs : List Int) : runMoves s xs = s := by
  induction xs with
  | nil => rfl
  | cons x xs ih =>
      show runMoves (handleMouseMove s x) xs = s
      rw [mouseMove_of_not_resizing s h x, ih]

/-- C7: after pointer-up sets isResizing to false, no subsequent sequence
of pointer-move events changes the sidebar width: the isResizing gate
makes every such move a no-op. -/
theorem c7_no_width_change_after_mouseup (s : LayoutState) (xs : List Int) :
    (runMoves (handleMouseUp s) xs).sidebarWidth =
      (handleMouseUp s).sidebarWidth := by
  rw [runMoves_of_not_resizing (handleMouseUp s) rfl xs]

/-- C8: every reader of the editor handle no-ops safely when the handle is
unset: the pointer-move and pointer-up handlers make no layout() call with
the handle unset, the observer effect creates no observer when the handle
is unset, and whenever an observer was created its callback dereferences a
set handle (the handle is assigned once at mount and never cleared, so the
handle at callback time is the one the setup guard checked). -/
theorem c8_readers_safe_when_handle_unset (s : LayoutState) (x : Int)
    (c : Option Unit) (h : s.editorHandle = none) :
    (handleMouseMove s x).layoutCalls = s.layoutCalls ∧
    (handleMouseUp s).layoutCalls = s.layoutCalls ∧
    setupResizeObserver c none = none ∧
    (∀ cont ed, setupResizeObserver cont ed ≠ none →
      observerCallback ed = Except.ok ()) := by
  refine ⟨?_, ?_, ?_, ?_⟩
  · by_cases hr : (!s.isResizing || !s.sidebarPresent) = true
    · simp [handleMouseMove, hr]
    · simp [handleMouseMove, hr, h]
  · simp [handleMouseUp, h]
  · cases c <;> rfl
  · intro cont ed hne
    cases cont <;> cases ed <;> simp [setupResizeObserver, observerCallback] at hne ⊢

/-- Witness for c8_readers_safe_when_handle_unset at a concrete state with
the editor handle unset. -/
theorem c8_readers_safe_witness :
    ({ resizingState with editorHandle := none } : LayoutState).editorHandle
        = none ∧
    ((handleMouseMove { resizingState with editorHandle := none }
        80).layoutCalls =
      ({ resizingState with editorHandle := none } : LayoutState).layoutCalls ∧
    (handleMouseUp { resizingState with editorHandle := none }).layoutCalls =
      ({ resizingState with editorHandle := none } : LayoutState).layoutCalls ∧
    setupResizeObserver none none = none ∧
    (∀ cont ed, setupResizeObserver cont ed ≠ none →
      observerCallback ed = Except.ok ())) :=
  ⟨rfl, c8_readers_safe_when_handle_unset
    { resizingState with editorHandle := none } 80 none rfl⟩

/-- Observable outcome of one invocation of a save handler: the contents
argument of each save_buffer call it issued, the buffer text afterwards,
the console lines it wrote, and the error it let escape uncaught, if
any. -/
structure SaveOutcome where
  sent : List String
  newCode : String
  logs : List String
  uncaught : Option HostError
deriving DecidableEq

/-- handleSave of src/ide-core/ui/src/App.tsx (lines 75-77): it awaits
invoke("save_buffer", contents := code) with no try/catch, so a rejection
escapes the handler uncaught; nothing is logged, the buffer text is not
touched, and no second attempt is made. -/
def handleSave (code : String) (result : Except HostError Unit) :
    SaveOutcome :=
  match result with
  | Except.ok _ =>
      { sent := [code], newCode := code, logs := [], uncaught := none }
  | Except.error e =>
      { sent := [code], newCode := code, logs := [], uncaught := some e }

/-- handleSave of src/unnamed/part_000 (lines 12-19): the same call inside
try/catch, logging "Saved successfully" on success and "Failed to save" on
failure; the buffer text is not touched and no second attempt is made. -/
def handleSaveSimple (code : String) (result : Except HostError Unit) :
    SaveOutcome :=
  match result with
  | Except.ok _ =>
      { sent := [code], newCode := code,
        logs := ["Saved successfully"], uncaught := none }
  | Except.error e =>
      { sent := [code], newCode := code,
        logs := ["Failed to save"], uncaught := none }

/-- C3 counterexample: when the save fails in the handleSave of
src/ide-core/ui/src/App.tsx, nothing is logged - the rejection escapes the
handler uncaught - so the claim that the failure is logged is false for
that handler. -/
theorem c3_save_failure_unlogged :
    (handleSave "let x = 1;" (Except.error HostError.invalid)).logs = [] ∧
    (handleSave "let x = 1;" (Except.error HostError.invalid)).uncaught =
      some HostError.invalid := by
  refine ⟨rfl, rfl⟩

/-- C3 amended: when saveBuffer fails, neither variant retries (exactly
one save_buffer call is issued) and neither changes the in-memory buffer
text, so a user-initiated retry remains possible; the failure is logged
only by the simpler variant (src/unnamed/part_000), while the richer
variant logs nothing and lets the rejection propagate uncaught. -/
theorem c3_amended_save_failure_behaviour (c : String) (e : HostError) :
    (handleSave c (Except.error e)).sent = [c] ∧
    (handleSave c (Except.error e)).newCode = c ∧
    (handleSave c (Except.error e)).logs = [] ∧
    (handleSave c (Except.error e)).uncaught = some e ∧
    (handleSaveSimple c (Except.error e)).sent = [c] ∧
    (handleSaveSimple c (Except.error e)).newCode = c ∧
    (handleSaveSimple c (Except.error e)).logs = ["Failed to save"] ∧
    (handleSaveSimple c (Except.error e)).uncaught = none := by
  refine ⟨rfl, rfl, rfl, rfl, rfl, rfl, rfl, rfl⟩

/-- Modelled from the spec: the host persistence state behind load_buffer
and save_buffer; the backend is not under src/.  Per spec section 6, a
load fails exactly when no persisted buffer exists and save persists the
given text verbatim. -/
structure Host where
  buffer : Option String
deriving DecidableEq

/-- Modelled from the spec: load_buffer returns the persisted buffer, or
fails with NotFound when none exists. -/
def loadBuffer (h : Host) : Except HostError String :=
  match h.buffer with
  | some t => Except.ok t
  | none => Except.error HostError.notFound

/-- Modelled from the spec: save_buffer persists the given text verbatim,
atomically at the host boundary. -/
def saveBuffer (contents : String) (_h : Host) : Host :=
  { buffer := some contents }

/-- handleLoad (lines 79-82 of App.tsx): await load_buffer then setCode on
its result; there is no catch, so on failure the code is unchanged and the
rejection escapes. -/
def handleLoad (code : String) (result : Except HostError String) :
    String × Option HostError :=
  match result with
  | Except.ok t => (t, none)
  | Except.error e => (code, some e)

/-- C9: loading the buffer and immediately saving without edits writes
back exactly the loaded text, leaving the host state unchanged: a
successful load overwrites the buffer text wholesale and save sends the
current buffer text verbatim. -/
theorem c9_load_then_save_noop_on_host (h : Host) (t c : String)
    (hb : h.buffer = some t) :
    saveBuffer (handleLoad c (loadBuffer h)).1 h = h := by
  cases h with
  | mk b =>
      cases b with
      | none => cases hb
      | some u =>
          cases hb
          rfl

/-- Witness for c9_load_then_save_noop_on_host on a host holding a
concrete buffer. -/
theorem c9_load_then_save_witness :
    (Host.mk (some "fn f()")).buffer = some "fn f()" ∧
    saveBuffer (handleLoad "placeholder"
        (loadBuffer (Host.mk (some "fn f()")))).1
      (Host.mk (some "fn f()")) = Host.mk (some "fn f()") :=
  ⟨rfl, c9_load_then_save_noop_on_host (Host.mk (some "fn f()"))
    "fn f()" "placeholder" rfl⟩

/-- JavaScript String.prototype.split with a one-character separator, on
the character list of the string: "a/b".split("/") is ["a","b"], adjacent
separators produce empty pieces, and "".split("/") is [""]. -/
def splitChar (sep : Char) : List Char → List (List Char)
  | [] => [[]]
  | c :: cs =>
    match splitChar sep cs with
    | [] => [[]]
    | r :: rs => if c = sep then [] :: r :: rs else (c :: r) :: rs

/-- splitChar always produces at least one piece. -/
theorem splitChar_ne_nil (sep : Char) (s : List Char) :
    splitChar sep s ≠ [] := by
  cases s with
  | nil => simp [splitChar]
  | cons c cs =>
      simp only [splitChar]
      cases splitChar sep cs with
      | nil => simp
      | cons r rs => by_cases hc : c = sep <;> simp [hc]

/-- A string without the separator is a single piece. -/
theorem splitChar_of_not_mem (sep : Char) (s : List Char)
    (h : sep ∉ s) : splitChar sep s = [s] := by
  induction s with
  | nil => rfl
  | cons c cs ih =>
      have hc : ¬c = sep := fun hcs => h (hcs ▸ List.mem_cons_self c cs)
      have hcs : sep ∉ cs := fun hm => h (List.mem_cons_of_mem c hm)
      simp only [splitChar, ih hcs]
      simp [hc]

/-- A string containing the separator splits into at least two pieces. -/
theorem two_le_splitChar_of_mem (sep : Char) (s : List Char)
    (h : sep ∈ s) : 2 ≤ (splitChar sep s).length := by
  induction s with
  | nil => cases h
  | cons c cs ih =>
      cases hsp : splitChar sep cs with
      | nil => exact absurd hsp (splitChar_ne_nil sep cs)
      | cons r rs =>
          by_cases hc : c = sep
          · simp [splitChar, hsp, hc]
          · have hm : sep ∈ cs := by
              cases List.mem_cons.mp h with
              | inl heq => exact absurd heq.symm hc
              | inr hm => exact hm
            have := ih hm
            rw [hsp] at this
            simp only [splitChar, hsp, hc, if_false, List.length_cons] at *
            omega

/-- Modelled from the words of the spec: the leaf name of a path is the
substring after the final path separator - everything past the last
occurrence of the separator, the whole string when there is none. -/
def suffixAfterLast (sep : Char) : List Char → List Char
  | [] => []
  | c :: cs =>
    if sep ∈ cs then suffixAfterLast sep cs
    else if c = sep then cs
    else c :: cs

/-- The last piece of the split equals the suffix after the last
separator: file.split(sep).pop() computes the leaf name the spec
describes. -/
theorem splitChar_getLastD (sep : Char) (s : List Char) :
    (splitChar sep s).getLastD [] = suffixAfterLast sep s := by
  induction s with
  | nil => rfl
  | cons c cs ih =>
      cases hsp : splitChar sep cs with
      | nil => exact absurd hsp (splitChar_ne_nil sep cs)
      | cons r rs =>
          rw [hsp] at ih
          by_cases hm : sep ∈ cs
          · by_cases hc : c = sep
            · simp only [splitChar, hsp, hc, if_true, suffixAfterLast, hm]
              simpa using ih
            · have h2 := two_le_splitChar_of_mem sep cs hm
              rw [hsp] at h2
              cases rs with
              | nil => simp at h2
              | cons r2 rs2 =>
                  simp only [splitChar, hsp, hc, if_false, suffixAfterLast,
                    hm, if_true]
                  simpa using ih
          · have hsingle := splitChar_of_not_mem sep cs hm
            by_cases hc : c = sep
            · simp [splitChar, hsingle, hc, suffixAfterLast, hm]
            · simp [splitChar, hsingle, hc, suffixAfterLast, hm]

/-- The displayed name of a path (line 115 of App.tsx):
file.split("/").pop() - the last piece of the split on the path
separator. -/
def leafName (path : String) : String :=
  String.mk ((splitChar ( '/' ) path.data).getLastD [])

/-- Modelled from the spec: the leaf name as the spec words it - the
substring after the final path separator. -/
def specLeafName (path : String) : String :=
  String.mk (suffixAfterLast ( '/' ) path.data)

/-- The file-list rendering (lines 113-117 of App.tsx): fileList.map,
keeping the full path as the key (key=file) and displaying the leaf
name, in the host-returned order. -/
def renderFileList (files : List String) : List (String × String) :=
  files.map (fun file => (file, leafName file))

/-- C6: for every path the displayed name is the substring after the
final path separator, the rendering keys are the full paths in the
host-returned order, and on the host result of the scenario the displayed
names are exactly the leaf names in that order. -/
theorem c6_leaf_names_keys_and_order :
    (∀ p : String, leafName p = specLeafName p) ∧
    (∀ files : List String, (renderFileList files).map Prod.fst = files) ∧
    (renderFileList ["/proj/a.rs", "/proj/sub/b.rs"]).map Prod.snd =
      ["a.rs", "b.rs"] := by
  refine ⟨?_, ?_, ?_⟩
  · intro p
    unfold leafName specLeafName
    rw [splitChar_getLastD]
  · intro files
    unfold renderFileList
    rw [List.map_map]
    exact List.map_id files
  · rfl

